import Mathlib

/-!
Verification development for the resilient pooled-resource connection
subsystem of the repository: the retry/backoff policy engine
(package retry) and the connection lifecycle wrappers built on it
(package database, package cache).

The retry package implementation itself is not among the provided
sources; only its test suite, its documented examples and its callers
are.  The retry definitions below are therefore modelled from the
specification (sections 3, 4.1, 4.2, 8), with the package test suite
used to settle the one point where the specification is internally
inconsistent (the pre-attempt cancellation check).  The database and
cache wrapper definitions are translated directly from
pkg/database/postgres.go and the cache source file.

Durations are modelled as rational numbers of seconds.  Randomness
(the jitter sample) is modelled as an explicit parameter.  The
surrounding execution environment (operation outcomes per attempt,
context cancellation observed at each backoff wait) is modelled as an
oracle structure called World.
-/

namespace Retry

/-- Modelled from the spec: the result classification of the retry
orchestrator `Do` (spec sections 4.2 and 7).  `failed e` is the
zero-retry case where the last operation error is returned unchanged;
`exhausted e` is the `AttemptsExhausted` error wrapping the most
recent operation error `e`; `cancelled` is the caller cancellation
error; `configError` is the configuration-error classification. -/
inductive DoResult (ε : Type) where
  | ok : DoResult ε
  | configError : DoResult ε
  | cancelled : DoResult ε
  | exhausted : ε → DoResult ε
  | failed : ε → DoResult ε
deriving DecidableEq

/-- Modelled from the spec: observable events on the calling path of
`Do`: an operation invocation for attempt `i`, an `onRetry` callback
invocation with attempt index `i` and that attempt error, and a
completed backoff wait after attempt `i`. -/
inductive REvent (ε : Type) where
  | call : Nat → REvent ε
  | cb : Nat → ε → REvent ε
  | wait : Nat → REvent ε
deriving DecidableEq

/-- Modelled from the spec: the environment of one `Do` run.
`opResult i` is the outcome of the operation on attempt `i`
(`none` is success); `cancelledInWait i` tells whether caller
cancellation wins the race at the backoff wait following attempt `i`
(this is also how an already-cancelled context is observed: the
package tests show the first attempt still runs under a pre-cancelled
context, so cancellation is observed at the wait select). -/
structure World (ε : Type) where
  opResult : Nat → Option ε
  cancelledInWait : Nat → Bool

/-- Modelled from the spec: retry configuration (spec section 3).
`maxAttempts` is the number of retries after the first attempt;
`hasStrategy` models whether the required strategy field is non-null;
`hasOnRetry` models whether the optional callback is set. -/
structure Config where
  maxAttempts : Int
  hasStrategy : Bool
  hasOnRetry : Bool

/-- Modelled from the spec: `Config.Validate` succeeds exactly when
`maxAttempts` is non-negative and the strategy is non-null. -/
def Config.validateOk (c : Config) : Bool :=
  decide (0 ≤ c.maxAttempts) && c.hasStrategy

/-- The outcome of a `Do` run together with the trace of observable
events on the calling path, in order. -/
structure RunResult (ε : Type) where
  result : DoResult ε
  events : List (REvent ε)
deriving DecidableEq

/-- Number of operation invocations recorded in an event trace. -/
def callCount {ε : Type} (evs : List (REvent ε)) : Nat :=
  evs.countP fun e =>
    match e with
    | .call _ => true
    | _ => false

/-- Modelled from the spec: the main loop of `Do` (spec section 4.2,
steps b through e), with `m` the configured `maxAttempts`, the first
argument the number of remaining retries and the second the current
attempt index.  On failure of the final allowed attempt the error is
returned unchanged when `m = 0` and wrapped in the exhaustion error
otherwise.  On failure of a non-final attempt the callback fires (when
set), then the backoff wait races caller cancellation; if cancellation
wins, the cancellation error is returned and no further attempt is
made. -/
def doFrom {ε : Type} (w : World ε) (m : Nat) (hasCb : Bool) :
    Nat → Nat → RunResult ε
  | 0, a =>
    match w.opResult a with
    | none => ⟨.ok, [.call a]⟩
    | some e => ⟨if m = 0 then .failed e else .exhausted e, [.call a]⟩
  | r + 1, a =>
    match w.opResult a with
    | none => ⟨.ok, [.call a]⟩
    | some e =>
      let pre : List (REvent ε) :=
        .call a :: (if hasCb then [.cb a e] else [])
      if w.cancelledInWait a then
        ⟨.cancelled, pre⟩
      else
        let rest := doFrom w m hasCb r (a + 1)
        ⟨rest.result, pre ++ .wait a :: rest.events⟩

/-- Modelled from the spec: the retry orchestrator `Do` (spec section
4.2).  The configuration is validated first; an invalid configuration
fails immediately with the configuration-error classification and no
attempt is made.  Otherwise the retry loop runs starting at attempt 0
with `maxAttempts` remaining retries. -/
def Do {ε : Type} (w : World ε) (c : Config) : RunResult ε :=
  if c.validateOk then
    doFrom w c.maxAttempts.toNat c.hasOnRetry c.maxAttempts.toNat 0
  else
    ⟨.configError, []⟩

/-- Modelled from the spec: exponential backoff strategy fields (spec
sections 3 and 4.1). -/
structure ExponentialBackoff where
  emin : ℚ
  emax : ℚ
  factor : ℚ
  jitter : Bool

/-- Modelled from the spec: the default exponential strategy, with
min 500ms, max 30s, factor 2 and jitter enabled. -/
def NewDefaultExponentialBackoff : ExponentialBackoff :=
  ⟨1 / 2, 30, 2, true⟩

/-- Modelled from the spec: `ExponentialBackoff.NextDelay` (spec
section 4.1).  Negative attempt indices are clamped to 0 (the clamping
is `Int.toNat`).  The unjittered delay is the capped
`min * factor ^ attempt`; with jitter enabled the capped value is
multiplied by the fresh uniform sample `j`, modelled here as an
explicit parameter drawn from the interval from one half to three
halves. -/
def ExponentialBackoff.nextDelay (b : ExponentialBackoff)
    (attempt : Int) (j : ℚ) : ℚ :=
  let a : Nat := attempt.toNat
  let base : ℚ := min (b.emin * b.factor ^ a) b.emax
  if b.jitter then base * j else base

/-- Modelled from the spec: linear backoff strategy fields (spec
section 3). -/
structure LinearBackoff where
  increment : ℚ
  lmax : ℚ

/-- Modelled from the spec: the linear strategy constructor with its
normalizations: an increment at most 0 is replaced by 1 second, and a
max smaller than the (normalized) increment is raised to it. -/
def NewLinearBackoff (inc mx : ℚ) : LinearBackoff :=
  let inc2 : ℚ := if inc ≤ 0 then 1 else inc
  let mx2 : ℚ := if mx < inc2 then inc2 else mx
  ⟨inc2, mx2⟩

/-- Modelled from the spec: `LinearBackoff.NextDelay`: delay is
increment times (attempt + 1), capped at max; negative attempt indices
are clamped to 0. -/
def LinearBackoff.nextDelay (b : LinearBackoff) (attempt : Int) : ℚ :=
  min (b.increment * (attempt.toNat + 1)) b.lmax

end Retry

namespace DBW

/-- Error classification of the database wrapper, translated from the
fault values declared in pkg/database/postgres.go.  Wrapping
constructors carry the wrapped error: `retryExhausted` is the retry
package exhaustion error around the last attempt error,
`connectionFailed` is ErrConnectionFailed wrapping a
configuration-classified orchestrator error (postgres.go line 138),
and `connectionError` is the generic wrap with host context
(postgres.go line 145).  Backend-native causes are abstracted as
natural-number tokens. -/
inductive DBErr where
  | alreadyConnected : DBErr
  | notConnected : DBErr
  | openFailed : Nat → DBErr
  | pingFailed : Nat → DBErr
  | closeFailed : Nat → DBErr
  | execFailed : Nat → DBErr
  | queryFailed : Nat → DBErr
  | txFailed : Nat → DBErr
  | retryInvalidConfig : DBErr
  | retryExhausted : DBErr → DBErr
  | ctxCancelled : DBErr
  | connectionFailed : DBErr → DBErr
  | connectionError : DBErr → DBErr
deriving DecidableEq

/-- State of the database wrapper: the connection handle field
`db.conn`, which is nil (`none`) exactly in the Disconnected state.
Handles are abstracted as natural numbers. -/
structure DBState where
  conn : Option Nat
deriving DecidableEq

/-- Outcome of one dial-and-verify attempt of the backend, the
environment of `DB.connect` (postgres.go lines 161-191): sql.Open may
fail, the verification ping may fail, or a pooled client handle is
obtained. -/
inductive DialOutcome where
  | openFail : Nat → DialOutcome
  | pingFail : Nat → DialOutcome
  | ok : Nat → DialOutcome
deriving DecidableEq

/-- True when the dial-and-verify attempt does not succeed. -/
def DialOutcome.fails : DialOutcome → Bool
  | .openFail _ => true
  | .pingFail _ => true
  | .ok _ => false

/-- Result of one dial-and-verify attempt: the error (if any), the
wrapper state afterwards, whether a fresh client was opened during the
attempt, and whether that fresh client was closed again before
returning. -/
structure OnceResult where
  err : Option DBErr
  st : DBState
  opened : Bool
  closedAgain : Bool
deriving DecidableEq

/-- Translated from `DB.connect` (postgres.go lines 161-191): open a
pooled client (on failure return ErrOpenFailed wrapping the cause,
nothing was opened), configure the pool, then verify with a ping
bounded by the query timeout; on ping failure the freshly opened
client is closed and ErrPingFailed wrapping the cause is returned with
the wrapper state untouched; on success the handle is stored in
`db.conn`. -/
def dbConnectOnce (st : DBState) (o : DialOutcome) : OnceResult :=
  match o with
  | .openFail c => ⟨some (.openFailed c), st, false, false⟩
  | .pingFail c => ⟨some (.pingFailed c), st, true, true⟩
  | .ok h => ⟨none, ⟨some h⟩, true, false⟩

/-- Translated from the composition of `retry.Do` with the stateful
single-attempt operation `db.connect` as driven by `DB.Connect`
(postgres.go line 127): the retry loop of the orchestrator, threading
the wrapper state.  Arguments as in `Retry.doFrom`; the state only
changes when an attempt succeeds, which ends the loop. -/
def dbConnectFrom (st : DBState) (outcomes : Nat → DialOutcome)
    (cancel : Nat → Bool) (m : Nat) :
    Nat → Nat → Retry.DoResult DBErr × DBState × Nat
  | 0, a =>
    let r := dbConnectOnce st (outcomes a)
    match r.err with
    | none => (.ok, r.st, 1)
    | some e => ((if m = 0 then .failed e else .exhausted e), st, 1)
  | rr + 1, a =>
    let r := dbConnectOnce st (outcomes a)
    match r.err with
    | none => (.ok, r.st, 1)
    | some _e =>
      if cancel a then (.cancelled, st, 1)
      else
        let rest := dbConnectFrom st outcomes cancel m rr (a + 1)
        (rest.1, rest.2.1, 1 + rest.2.2)

/-- Result of `DB.Connect`: the error (if any), the wrapper state
afterwards, the number of dial-and-verify attempts performed, and the
number of calls made to the retry orchestrator. -/
structure ConnectResult where
  err : Option DBErr
  st : DBState
  dialCount : Nat
  retryDoCalls : Nat
deriving DecidableEq

/-- Translated from `DB.Connect` (postgres.go lines 113-158): if the
connection handle already exists, fail fast with ErrAlreadyConnected,
performing no dial and not calling the retry orchestrator.  Otherwise
drive `db.connect` through `retry.Do`; a configuration-classified
orchestrator error is wrapped in ErrConnectionFailed, any other
orchestrator error in the generic host-context wrap. -/
def dbConnect (st : DBState) (maxAttempts : Int) (hasStrategy : Bool)
    (outcomes : Nat → DialOutcome) (cancel : Nat → Bool) : ConnectResult :=
  match st.conn with
  | some _ => ⟨some .alreadyConnected, st, 0, 0⟩
  | none =>
    if decide (0 ≤ maxAttempts) && hasStrategy then
      let r := dbConnectFrom st outcomes cancel maxAttempts.toNat
        maxAttempts.toNat 0
      match r.1 with
      | .ok => ⟨none, r.2.1, r.2.2, 1⟩
      | .configError => ⟨some (.connectionFailed .retryInvalidConfig), st, r.2.2, 1⟩
      | .cancelled => ⟨some (.connectionError .ctxCancelled), r.2.1, r.2.2, 1⟩
      | .exhausted e => ⟨some (.connectionError (.retryExhausted e)), r.2.1, r.2.2, 1⟩
      | .failed e => ⟨some (.connectionError e), r.2.1, r.2.2, 1⟩
    else
      ⟨some (.connectionFailed .retryInvalidConfig), st, 0, 1⟩

/-- Translated from `DB.Close` (postgres.go lines 211-226): with no
handle, return ErrNotConnected having made no backend call; otherwise
close the handle (on backend failure return ErrCloseFailed and keep
the handle), then nil the handle.  The second component is the state
afterwards, the third the number of backend calls. -/
def dbClose (st : DBState) (closeErr : Option Nat) :
    Option DBErr × DBState × Nat :=
  match st.conn with
  | none => (some .notConnected, st, 0)
  | some _ =>
    match closeErr with
    | some c => (some (.closeFailed c), st, 1)
    | none => (none, ⟨none⟩, 1)

/-- Translated from `DB.Ping` (postgres.go lines 229-245): with no
handle, ErrNotConnected and no backend call; otherwise one bounded
ping, failures classified as ErrPingFailed. -/
def dbPing (st : DBState) (pingErr : Option Nat) : Option DBErr × Nat :=
  match st.conn with
  | none => (some .notConnected, 0)
  | some _ =>
    match pingErr with
    | some c => (some (.pingFailed c), 1)
    | none => (none, 1)

/-- Translated from `DB.ExecContext` (postgres.go lines 300-323): with
no handle, ErrNotConnected and no backend call; otherwise one bounded
execution, failures wrapped as ErrExecFailed. -/
def dbExecContext (st : DBState) (execErr : Option Nat) : Option DBErr × Nat :=
  match st.conn with
  | none => (some .notConnected, 0)
  | some _ =>
    match execErr with
    | some c => (some (.execFailed c), 1)
    | none => (none, 1)

/-- Translated from `DB.QueryContext` (postgres.go lines 326-349):
with no handle, ErrNotConnected and no backend call; otherwise one
bounded query, failures wrapped as ErrQueryFailed. -/
def dbQueryContext (st : DBState) (queryErr : Option Nat) : Option DBErr × Nat :=
  match st.conn with
  | none => (some .notConnected, 0)
  | some _ =>
    match queryErr with
    | some c => (some (.queryFailed c), 1)
    | none => (none, 1)

/-- Translated from `DB.BeginTx` (postgres.go lines 364-378): with no
handle, ErrNotConnected and no backend call; otherwise one backend
call, failures wrapped as ErrTransactionFailed. -/
def dbBeginTx (st : DBState) (txErr : Option Nat) : Option DBErr × Nat :=
  match st.conn with
  | none => (some .notConnected, 0)
  | some _ =>
    match txErr with
    | some c => (some (.txFailed c), 1)
    | none => (none, 1)

end DBW

namespace CacheW

/-- Error classification of the cache wrapper, translated from the
fault values declared in the cache source file. -/
inductive CErr where
  | alreadyConnected : CErr
  | notConnected : CErr
  | pingFailed : Nat → CErr
  | closeFailed : Nat → CErr
  | retryInvalidConfig : CErr
  | retryExhausted : CErr → CErr
  | ctxCancelled : CErr
  | connectionFailed : CErr → CErr
  | connectionError : CErr → CErr
deriving DecidableEq

/-- State of the cache wrapper: the client handle field `c.client`. -/
structure CacheState where
  client : Option Nat
deriving DecidableEq

/-- Outcome of one dial-and-verify attempt of the cache backend
(Cache.connect): building the client cannot fail, only the
verification ping can. -/
inductive CacheDial where
  | pingFail : Nat → CacheDial
  | ok : Nat → CacheDial
deriving DecidableEq

/-- True when the cache dial-and-verify attempt does not succeed. -/
def CacheDial.fails : CacheDial → Bool
  | .pingFail _ => true
  | .ok _ => false

/-- Result of one cache dial-and-verify attempt, as for the database
wrapper. -/
structure COnceResult where
  err : Option CErr
  st : CacheState
  opened : Bool
  closedAgain : Bool
deriving DecidableEq

/-- Translated from `Cache.connect` (cache source lines 130-158):
build a client from the options (always opens a fresh client), verify
with a bounded ping; on ping failure the fresh client is closed and
ErrPingFailed wrapping the cause is returned with the state untouched;
on success the client is stored. -/
def cacheConnectOnce (st : CacheState) (o : CacheDial) : COnceResult :=
  match o with
  | .pingFail c => ⟨some (.pingFailed c), st, true, true⟩
  | .ok h => ⟨none, ⟨some h⟩, true, false⟩

/-- Translated from the composition of `retry.Do` with the stateful
operation `c.connect` as driven by `Cache.Connect` (cache source line
96), as for the database wrapper. -/
def cacheConnectFrom (st : CacheState) (outcomes : Nat → CacheDial)
    (cancel : Nat → Bool) (m : Nat) :
    Nat → Nat → Retry.DoResult CErr × CacheState × Nat
  | 0, a =>
    let r := cacheConnectOnce st (outcomes a)
    match r.err with
    | none => (.ok, r.st, 1)
    | some e => ((if m = 0 then .failed e else .exhausted e), st, 1)
  | rr + 1, a =>
    let r := cacheConnectOnce st (outcomes a)
    match r.err with
    | none => (.ok, r.st, 1)
    | some _e =>
      if cancel a then (.cancelled, st, 1)
      else
        let rest := cacheConnectFrom st outcomes cancel m rr (a + 1)
        (rest.1, rest.2.1, 1 + rest.2.2)

/-- Result of `Cache.Connect`, as for the database wrapper. -/
structure CConnectResult where
  err : Option CErr
  st : CacheState
  dialCount : Nat
  retryDoCalls : Nat
deriving DecidableEq

/-- Translated from `Cache.Connect` (cache source lines 81-128): if
the client handle already exists, fail fast with ErrAlreadyConnected,
performing no dial and not calling the retry orchestrator; otherwise
drive `c.connect` through `retry.Do` with the same error wrapping as
the database wrapper. -/
def cacheConnect (st : CacheState) (maxAttempts : Int)
    (hasStrategy : Bool) (outcomes : Nat → CacheDial)
    (cancel : Nat → Bool) : CConnectResult :=
  match st.client with
  | some _ => ⟨some .alreadyConnected, st, 0, 0⟩
  | none =>
    if decide (0 ≤ maxAttempts) && hasStrategy then
      let r := cacheConnectFrom st outcomes cancel maxAttempts.toNat
        maxAttempts.toNat 0
      match r.1 with
      | .ok => ⟨none, r.2.1, r.2.2, 1⟩
      | .configError => ⟨some (.connectionFailed .retryInvalidConfig), st, r.2.2, 1⟩
      | .cancelled => ⟨some (.connectionError .ctxCancelled), r.2.1, r.2.2, 1⟩
      | .exhausted e => ⟨some (.connectionError (.retryExhausted e)), r.2.1, r.2.2, 1⟩
      | .failed e => ⟨some (.connectionError e), r.2.1, r.2.2, 1⟩
    else
      ⟨some (.connectionFailed .retryInvalidConfig), st, 0, 1⟩

end CacheW

/-- A run environment whose operation fails with error token 7 on
every attempt and whose caller context is never cancelled. -/
def wFail : Retry.World Nat := ⟨fun _ => some 7, fun _ => false⟩

/-- A run environment whose operation fails with error token 7 on
every attempt under a context that is cancelled from the start, so
cancellation wins every backoff wait. -/
def wFailCancelled : Retry.World Nat := ⟨fun _ => some 7, fun _ => true⟩

/-- A run environment whose operation fails on attempts 0 and 1 with
distinct error tokens and succeeds on attempt 2, never cancelled. -/
def wSuccessAt2 : Retry.World Nat :=
  ⟨fun i => if i < 2 then some (i + 10) else none, fun _ => false⟩

/-- A run environment whose operation always fails and whose caller
context is cancelled during the backoff wait after attempt 1. -/
def wCancelAt1 : Retry.World Nat :=
  ⟨fun _ => some 7, fun i => decide (1 ≤ i)⟩

/-- Retry configuration with three retries, a strategy and no
callback. -/
def cfg3 : Retry.Config := ⟨3, true, false⟩

/-- Retry configuration with three retries, a strategy and the
callback set. -/
def cfg3cb : Retry.Config := ⟨3, true, true⟩

/-- Retry configuration with zero retries and a strategy. -/
def cfg0 : Retry.Config := ⟨0, true, false⟩

/-- Invalid retry configuration: negative maximum attempts. -/
def cfgNeg : Retry.Config := ⟨-1, true, false⟩

/-- Invalid retry configuration: null strategy. -/
def cfgNoStrategy : Retry.Config := ⟨3, false, false⟩

/-- Ten-retry configuration used for cancellation scenarios. -/
def cfg10 : Retry.Config := ⟨10, true, false⟩

theorem doFrom_allFail {ε : Type} (w : Retry.World ε) (m : Nat)
    (cb : Bool) (f : Nat → ε)
    (hf : ∀ i, w.opResult i = some (f i))
    (hnc : ∀ i, w.cancelledInWait i = false) :
    ∀ r a,
      (Retry.doFrom w m cb r a).result =
        (if m = 0 then Retry.DoResult.failed (f (a + r))
          else Retry.DoResult.exhausted (f (a + r))) ∧
      Retry.callCount (Retry.doFrom w m cb r a).events = r + 1 := by
  intro r
  induction r with
  | zero =>
    intro a
    simp [Retry.doFrom, hf a, Retry.callCount]
  | succ r ih =>
    intro a
    obtain ⟨ih1, ih2⟩ := ih (a + 1)
    have heq : a + 1 + r = a + (r + 1) := by omega
    rw [heq] at ih1
    refine ⟨?_, ?_⟩
    · simpa [Retry.doFrom, hf a, hnc a] using ih1
    · simp [Retry.doFrom, hf a, hnc a, Retry.callCount,
        List.countP_append, List.countP_cons]
      simp [Retry.callCount] at ih2
      cases cb <;> simp [ih2]

/-- C1: for every retry config with maxAttempts at least 0 and a
non-null strategy, and every operation that fails on all attempts
(with no caller cancellation), Do invokes the operation exactly
maxAttempts + 1 times; if maxAttempts is at least 1 it returns the
AttemptsExhausted error wrapping the most recent operation error, and
if maxAttempts equals 0 it returns the last operation error unchanged.
Spec-modelled: the retry package implementation is absent from the
sources. -/
theorem C1_do_exhaustion (w : Retry.World Nat) (c : Retry.Config)
    (f : Nat → Nat) (hm : 0 ≤ c.maxAttempts) (hs : c.hasStrategy = true)
    (hf : ∀ i, w.opResult i = some (f i))
    (hnc : ∀ i, w.cancelledInWait i = false) :
    Retry.callCount (Retry.Do w c).events = c.maxAttempts.toNat + 1 ∧
    (1 ≤ c.maxAttempts →
      (Retry.Do w c).result =
        Retry.DoResult.exhausted (f c.maxAttempts.toNat)) ∧
    (c.maxAttempts = 0 →
      (Retry.Do w c).result = Retry.DoResult.failed (f 0)) := by
  have hv : c.validateOk = true := by
    simp [Retry.Config.validateOk, hm, hs]
  obtain ⟨h1, h2⟩ :=
    doFrom_allFail w c.maxAttempts.toNat c.hasOnRetry f hf hnc
      c.maxAttempts.toNat 0
  simp only [Retry.Do, hv, if_true]
  refine ⟨h2, ?_, ?_⟩
  · intro hge
    have hne : c.maxAttempts.toNat ≠ 0 := by omega
    rw [h1, if_neg hne]
    simp
  · intro h0
    rw [h1]
    simp [h0]

/-- Witness for C1 at a concrete input: always-failing operation,
three retries. -/
theorem C1_do_exhaustion_witness :
    Retry.callCount (Retry.Do wFail cfg3).events = 4 ∧
    (1 ≤ cfg3.maxAttempts →
      (Retry.Do wFail cfg3).result = Retry.DoResult.exhausted 7) ∧
    (cfg3.maxAttempts = 0 →
      (Retry.Do wFail cfg3).result = Retry.DoResult.failed 7) := by
  have h := C1_do_exhaustion wFail cfg3 (fun _ => 7) (by decide) rfl
    (fun _ => rfl) (fun _ => rfl)
  simpa using h

theorem doFrom_cancelAt {ε : Type} (w : Retry.World ε) (m : Nat)
    (cb : Bool) (f : Nat → ε) :
    ∀ d r a, d < r →
      (∀ i, a ≤ i → i ≤ a + d → w.opResult i = some (f i)) →
      (∀ i, a ≤ i → i < a + d → w.cancelledInWait i = false) →
      w.cancelledInWait (a + d) = true →
      (Retry.doFrom w m cb r a).result = Retry.DoResult.cancelled ∧
      Retry.callCount (Retry.doFrom w m cb r a).events = d + 1 := by
  intro d
  induction d with
  | zero =>
    intro r a hd hf _ hc
    cases r with
    | zero => omega
    | succ r =>
      have hopa : w.opResult a = some (f a) := hf a le_rfl (by omega)
      rw [Nat.add_zero] at hc
      cases cb <;>
        simp [Retry.doFrom, hopa, hc, Retry.callCount]
  | succ d ih =>
    intro r a hd hf hnc hc
    cases r with
    | zero => omega
    | succ r =>
      have hopa : w.opResult a = some (f a) := hf a le_rfl (by omega)
      have hca : w.cancelledInWait a = false := hnc a le_rfl (by omega)
      have heq : a + 1 + d = a + (d + 1) := by omega
      obtain ⟨ih1, ih2⟩ := ih r (a + 1) (by omega)
        (fun i h1 h2 => hf i (by omega) (by omega))
        (fun i h1 h2 => hnc i (by omega) (by omega))
        (by rw [heq]; exact hc)
      refine ⟨?_, ?_⟩
      · simpa [Retry.doFrom, hopa, hca] using ih1
      · simp [Retry.doFrom, hopa, hca, Retry.callCount,
          List.countP_append, List.countP_cons]
        simp [Retry.callCount] at ih2
        cases cb <;> simp [ih2]

/-- C3 counterexample: under a context that is already cancelled when
Do begins (modelled by cancellation winning every backoff wait, the
only place the missing implementation observes it, per the package
test with a pre-cancelled context) the operation is still invoked
exactly once, not zero times as the claim states. -/
theorem C3_counterexample :
    (Retry.Do wFailCancelled cfg3).result = Retry.DoResult.cancelled ∧
    Retry.callCount (Retry.Do wFailCancelled cfg3).events = 1 ∧
    ¬ Retry.callCount (Retry.Do wFailCancelled cfg3).events = 0 := by
  decide

/-- C3 amended: cancellation is observed at the backoff wait after a
failed attempt, not before an attempt begins: for every run where
attempts 0 through k fail, no earlier wait is cancelled and
cancellation wins the wait after attempt k (with k below the final
allowed attempt), Do returns the cancellation error having invoked the
operation exactly k + 1 times, making no further attempts; in
particular a context already cancelled when Do begins still gets one
operation invocation before the cancellation error is returned.
Spec-modelled: the retry package implementation is absent from the
sources. -/
theorem C3_cancellation (w : Retry.World Nat) (c : Retry.Config)
    (f : Nat → Nat) (k : Nat) (hm : 0 ≤ c.maxAttempts)
    (hs : c.hasStrategy = true) (hk : k < c.maxAttempts.toNat)
    (hf : ∀ i, i ≤ k → w.opResult i = some (f i))
    (hncb : ∀ i, i < k → w.cancelledInWait i = false)
    (hc : w.cancelledInWait k = true) :
    (Retry.Do w c).result = Retry.DoResult.cancelled ∧
    Retry.callCount (Retry.Do w c).events = k + 1 := by
  have hv : c.validateOk = true := by
    simp [Retry.Config.validateOk, hm, hs]
  simp only [Retry.Do, hv, if_true]
  exact doFrom_cancelAt w c.maxAttempts.toNat c.hasOnRetry f k
    c.maxAttempts.toNat 0 hk
    (fun i _ h2 => hf i (by omega))
    (fun i _ h2 => hncb i (by omega))
    (by simpa using hc)

/-- Witness for the amended C3 at a concrete input: cancellation wins
the wait after attempt 1; exactly two invocations occur. -/
theorem C3_cancellation_witness :
    (Retry.Do wCancelAt1 cfg10).result = Retry.DoResult.cancelled ∧
    Retry.callCount (Retry.Do wCancelAt1 cfg10).events = 2 := by
  have h := C3_cancellation wCancelAt1 cfg10 (fun _ => 7) 1
    (by decide) rfl (by decide)
    (fun _ _ => rfl) (by decide) (by decide)
  simpa using h

/-- C5: for every run of Do with the callback set, no cancellation,
failures on all attempts before `k` and either success at attempt `k`
or `k` the final allowed attempt, the full event trace is: for each
failed non-final attempt `i` below `k`, in increasing order, the
operation call, then exactly one callback invocation with attempt
index `i` and that attempt error, then the corresponding wait, and
finally the call of attempt `k` with no callback after it.
Spec-modelled: the retry package implementation is absent from the
sources. -/
theorem C5_do_onRetry_trace (w : Retry.World Nat) (c : Retry.Config)
    (f : Nat → Nat) (k : Nat) (hm : 0 ≤ c.maxAttempts)
    (hs : c.hasStrategy = true) (hcb : c.hasOnRetry = true)
    (hk : k ≤ c.maxAttempts.toNat)
    (hf : ∀ i, i < k → w.opResult i = some (f i))
    (hlast : w.opResult k = none ∨ k = c.maxAttempts.toNat)
    (hnc : ∀ i, w.cancelledInWait i = false) :
    (Retry.Do w c).events =
      (List.range' 0 k).flatMap
        (fun i => [Retry.REvent.call i, Retry.REvent.cb i (f i),
          Retry.REvent.wait i]) ++ [Retry.REvent.call k] := by
  have hv : c.validateOk = true := by
    simp [Retry.Config.validateOk, hm, hs]
  simp only [Retry.Do, hv, if_true, hcb]
  have main : ∀ j r a, j ≤ r →
      (∀ i, a ≤ i → i < a + j → w.opResult i = some (f i)) →
      (w.opResult (a + j) = none ∨ j = r) →
      (Retry.doFrom w c.maxAttempts.toNat true r a).events =
        (List.range' a j).flatMap
          (fun i => [Retry.REvent.call i, Retry.REvent.cb i (f i),
            Retry.REvent.wait i]) ++ [Retry.REvent.call (a + j)] := by
    intro j
    induction j with
    | zero =>
      intro r a _ _ hl
      cases r with
      | zero =>
        cases hop : w.opResult a <;> simp [Retry.doFrom, hop]
      | succ r =>
        rcases hl with h | h
        · rw [Nat.add_zero] at h
          simp [Retry.doFrom, h]
        · omega
    | succ j ih =>
      intro r a hj hfa hl
      cases r with
      | zero => omega
      | succ r =>
        have hopa : w.opResult a = some (f a) :=
          hfa a le_rfl (by omega)
        have hca := hnc a
        have ihh := ih r (a + 1) (by omega)
          (fun i h1 h2 => hfa i (by omega) (by omega))
          (by
            rcases hl with h | h
            · left
              have heq : a + 1 + j = a + (j + 1) := by omega
              rw [heq]
              exact h
            · right; omega)
        have hrg : List.range' a (j + 1) = a :: List.range' (a + 1) j :=
          List.range'_succ a j 1
        have heq2 : a + 1 + j = a + (j + 1) := by omega
        rw [heq2] at ihh
        simp [Retry.doFrom, hopa, hca, ihh, hrg, List.flatMap_cons]
  have h0 := main k c.maxAttempts.toNat 0 hk
    (fun i _ h2 => hf i (by omega))
    (by
      rcases hlast with h | h
      · left; simpa using h
      · right; exact h)
  simpa using h0

/-- Witness for C5 at a concrete input: failures on attempts 0 and 1,
success on attempt 2, callback set. -/
theorem C5_do_onRetry_trace_witness :
    (Retry.Do wSuccessAt2 cfg3cb).events =
      [Retry.REvent.call 0, Retry.REvent.cb 0 10, Retry.REvent.wait 0,
        Retry.REvent.call 1, Retry.REvent.cb 1 11, Retry.REvent.wait 1,
        Retry.REvent.call 2] := by
  have h := C5_do_onRetry_trace wSuccessAt2 cfg3cb (fun i => i + 10) 2
    (by decide) rfl rfl (by decide)
    (by decide)
    (Or.inl (by decide)) (fun _ => rfl)
  simpa using h

/-- C2: for every exponential strategy with jitter disabled and every
attempt index a at least 0, NextDelay a equals the capped
min * factor ^ a, every negative attempt index gives the value at 0,
and the concrete table min 1s, max 30s, factor 2 gives 1, 2, 4, 8, 16
for attempts 0 through 4 and 30 for attempts 5 and 10.  Spec-modelled:
the retry package implementation is absent from the sources. -/
theorem C2_exponential_noJitter (b : Retry.ExponentialBackoff) (j : ℚ)
    (hj : b.jitter = false) :
    (∀ a : Nat, b.nextDelay a j = min (b.emin * b.factor ^ a) b.emax) ∧
    (∀ a : Int, a < 0 → b.nextDelay a j = b.nextDelay 0 j) ∧
    Retry.ExponentialBackoff.nextDelay ⟨1, 30, 2, false⟩ 0 j = 1 ∧
    Retry.ExponentialBackoff.nextDelay ⟨1, 30, 2, false⟩ 1 j = 2 ∧
    Retry.ExponentialBackoff.nextDelay ⟨1, 30, 2, false⟩ 2 j = 4 ∧
    Retry.ExponentialBackoff.nextDelay ⟨1, 30, 2, false⟩ 3 j = 8 ∧
    Retry.ExponentialBackoff.nextDelay ⟨1, 30, 2, false⟩ 4 j = 16 ∧
    Retry.ExponentialBackoff.nextDelay ⟨1, 30, 2, false⟩ 5 j = 30 ∧
    Retry.ExponentialBackoff.nextDelay ⟨1, 30, 2, false⟩ 10 j = 30 := by
  refine ⟨?_, ?_, ?_, ?_, ?_, ?_, ?_, ?_, ?_⟩
  · intro a
    simp [Retry.ExponentialBackoff.nextDelay, hj]
  · intro a ha
    simp [Retry.ExponentialBackoff.nextDelay, hj,
      Int.toNat_of_nonpos (le_of_lt ha)]
  all_goals simp [Retry.ExponentialBackoff.nextDelay, min_def] <;> norm_num

/-- Witness for C2 at concrete inputs: the capped attempt 5 and a
negative attempt for the table strategy. -/
theorem C2_exponential_noJitter_witness :
    Retry.ExponentialBackoff.nextDelay ⟨1, 30, 2, false⟩ 5 0 = 30 ∧
    Retry.ExponentialBackoff.nextDelay ⟨1, 30, 2, false⟩ (-5) 0 =
      Retry.ExponentialBackoff.nextDelay ⟨1, 30, 2, false⟩ 0 0 :=
  ⟨(C2_exponential_noJitter ⟨1, 30, 2, false⟩ 0 rfl).2.2.2.2.2.2.2.1,
    (C2_exponential_noJitter ⟨1, 30, 2, false⟩ 0 rfl).2.1 (-5) (by decide)⟩

/-- C6: for every exponential strategy with jitter enabled,
nonnegative min, factor and max, and every jitter sample j in the
closed interval from one half to three halves, NextDelay returns the
capped unjittered base multiplied by j, hence lies between half the
base and three halves of the base; and the returned delay can exceed
the configured max, witnessed by the table strategy at attempt 5 with
sample three halves.  Spec-modelled: the retry package implementation
is absent from the sources; the fresh uniform random sample is
modelled as the explicit parameter j. -/
theorem C6_exponential_jitter (b : Retry.ExponentialBackoff) (a : Int)
    (j : ℚ) (hb : b.jitter = true) (h1 : 1 / 2 ≤ j) (h2 : j ≤ 3 / 2)
    (hmin : 0 ≤ b.emin) (hfac : 0 ≤ b.factor) (hmax : 0 ≤ b.emax) :
    b.nextDelay a j = min (b.emin * b.factor ^ a.toNat) b.emax * j ∧
    min (b.emin * b.factor ^ a.toNat) b.emax * (1 / 2) ≤ b.nextDelay a j ∧
    b.nextDelay a j ≤ min (b.emin * b.factor ^ a.toNat) b.emax * (3 / 2) ∧
    Retry.ExponentialBackoff.nextDelay ⟨1, 30, 2, true⟩ 5 (3 / 2) > 30 := by
  have hbase : (0 : ℚ) ≤ min (b.emin * b.factor ^ a.toNat) b.emax :=
    le_min (mul_nonneg hmin (pow_nonneg hfac _)) hmax
  have hdef : b.nextDelay a j =
      min (b.emin * b.factor ^ a.toNat) b.emax * j := by
    simp [Retry.ExponentialBackoff.nextDelay, hb]
  refine ⟨hdef, ?_, ?_, ?_⟩
  · rw [hdef]
    exact mul_le_mul_of_nonneg_left h1 hbase
  · rw [hdef]
    exact mul_le_mul_of_nonneg_left h2 hbase
  · simp [Retry.ExponentialBackoff.nextDelay, min_def]
    norm_num

/-- Witness for C6 at a concrete input: the table strategy at attempt
1 with jitter sample 1. -/
theorem C6_exponential_jitter_witness :
    Retry.ExponentialBackoff.nextDelay ⟨1, 30, 2, true⟩ 1 1 =
      min ((1 : ℚ) * 2 ^ (1 : Int).toNat) 30 * 1 ∧
    min ((1 : ℚ) * 2 ^ (1 : Int).toNat) 30 * (1 / 2) ≤
      Retry.ExponentialBackoff.nextDelay ⟨1, 30, 2, true⟩ 1 1 ∧
    Retry.ExponentialBackoff.nextDelay ⟨1, 30, 2, true⟩ 1 1 ≤
      min ((1 : ℚ) * 2 ^ (1 : Int).toNat) 30 * (3 / 2) ∧
    Retry.ExponentialBackoff.nextDelay ⟨1, 30, 2, true⟩ 5 (3 / 2) > 30 :=
  C6_exponential_jitter ⟨1, 30, 2, true⟩ 1 1 rfl (by norm_num)
    (by norm_num) (by norm_num) (by norm_num) (by norm_num)

/-- C7: for every increment and max and every attempt index a at least
0, the linear strategy built by the constructor satisfies
NextDelay a = min of increment times (a + 1) and max over the
normalized fields; the constructor replaces an increment at most 0 by
1 second and raises a max below the increment to the increment; and
the concrete table increment 2s, max 10s gives 2, 4, 6, 8, 10 for
attempts 0 through 4 and 10 for attempt 5.  Spec-modelled: the retry
package implementation is absent from the sources. -/
theorem C7_linear (inc mx : ℚ) (a : Nat) :
    (Retry.NewLinearBackoff inc mx).nextDelay a =
      min ((Retry.NewLinearBackoff inc mx).increment * (a + 1))
        (Retry.NewLinearBackoff inc mx).lmax ∧
    (inc ≤ 0 → (Retry.NewLinearBackoff inc mx).increment = 1) ∧
    (0 < inc → (Retry.NewLinearBackoff inc mx).increment = inc) ∧
    (mx < (Retry.NewLinearBackoff inc mx).increment →
      (Retry.NewLinearBackoff inc mx).lmax =
        (Retry.NewLinearBackoff inc mx).increment) ∧
    ((Retry.NewLinearBackoff inc mx).increment ≤ mx →
      (Retry.NewLinearBackoff inc mx).lmax = mx) ∧
    (Retry.NewLinearBackoff 2 10).nextDelay 0 = 2 ∧
    (Retry.NewLinearBackoff 2 10).nextDelay 1 = 4 ∧
    (Retry.NewLinearBackoff 2 10).nextDelay 2 = 6 ∧
    (Retry.NewLinearBackoff 2 10).nextDelay 3 = 8 ∧
    (Retry.NewLinearBackoff 2 10).nextDelay 4 = 10 ∧
    (Retry.NewLinearBackoff 2 10).nextDelay 5 = 10 := by
  refine ⟨?_, ?_, ?_, ?_, ?_, ?_, ?_, ?_, ?_, ?_, ?_⟩
  · simp [Retry.LinearBackoff.nextDelay]
  · intro h
    simp [Retry.NewLinearBackoff, h]
  · intro h
    have hne : ¬ inc ≤ 0 := not_le_of_lt h
    simp [Retry.NewLinearBackoff, hne]
  · intro h
    simp only [Retry.NewLinearBackoff] at h ⊢
    rw [if_pos h]
  · intro h
    simp only [Retry.NewLinearBackoff] at h ⊢
    rw [if_neg (not_lt.mpr h)]
  all_goals simp [Retry.NewLinearBackoff, Retry.LinearBackoff.nextDelay,
    min_def]
  all_goals norm_num

/-- Witness for C7 at concrete inputs: default increment 1s when the
given increment is 0, and max raised to the increment when below it. -/
theorem C7_linear_witness :
    (Retry.NewLinearBackoff 0 5).increment = 1 ∧
    (Retry.NewLinearBackoff 10 5).lmax =
      (Retry.NewLinearBackoff 10 5).increment :=
  ⟨(C7_linear 0 5 0).2.1 (by norm_num),
    (C7_linear 10 5 0).2.2.2.1 (by norm_num [Retry.NewLinearBackoff])⟩

/-- C4: for every config with negative maxAttempts or a null strategy,
Do fails immediately with the configuration-error classification and
the operation is never invoked.  Spec-modelled: the retry package
implementation is absent from the sources. -/
theorem C4_do_invalidConfig (w : Retry.World Nat) (c : Retry.Config)
    (h : c.maxAttempts < 0 ∨ c.hasStrategy = false) :
    (Retry.Do w c).result = Retry.DoResult.configError ∧
    Retry.callCount (Retry.Do w c).events = 0 := by
  have hv : c.validateOk = false := by
    rcases h with h | h
    · have hlt : ¬ (0 ≤ c.maxAttempts) := by omega
      simp [Retry.Config.validateOk, hlt]
    · simp [Retry.Config.validateOk, h]
  simp [Retry.Do, hv, Retry.callCount]

/-- Witness for C4 at a concrete input: negative maxAttempts. -/
theorem C4_do_invalidConfig_witness :
    (Retry.Do wFail cfgNeg).result = Retry.DoResult.configError ∧
    Retry.callCount (Retry.Do wFail cfgNeg).events = 0 :=
  C4_do_invalidConfig wFail cfgNeg (Or.inl (by decide))

/-- C8: on a wrapper whose connection handle is present, Connect
returns AlreadyConnected immediately, performs no dial attempt, makes
no call to the retry orchestrator, and leaves the state unchanged;
this holds for the database wrapper and the cache wrapper alike. -/
theorem C8_connect_alreadyConnected (st : DBW.DBState) (h : Nat)
    (hc : st.conn = some h) (m : Int) (s : Bool)
    (outcomes : Nat → DBW.DialOutcome) (cancel : Nat → Bool)
    (cst : CacheW.CacheState) (ch : Nat) (hcc : cst.client = some ch)
    (coutcomes : Nat → CacheW.CacheDial) (ccancel : Nat → Bool) :
    DBW.dbConnect st m s outcomes cancel =
      ⟨some DBW.DBErr.alreadyConnected, st, 0, 0⟩ ∧
    CacheW.cacheConnect cst m s coutcomes ccancel =
      ⟨some CacheW.CErr.alreadyConnected, cst, 0, 0⟩ := by
  constructor
  · simp [DBW.dbConnect, hc]
  · simp [CacheW.cacheConnect, hcc]

/-- Witness for C8 at a concrete input: both wrappers holding handle
5. -/
theorem C8_connect_alreadyConnected_witness :
    DBW.dbConnect ⟨some 5⟩ 3 true (fun _ => DBW.DialOutcome.ok 9)
        (fun _ => false) =
      ⟨some DBW.DBErr.alreadyConnected, ⟨some 5⟩, 0, 0⟩ ∧
    CacheW.cacheConnect ⟨some 5⟩ 3 true (fun _ => CacheW.CacheDial.ok 9)
        (fun _ => false) =
      ⟨some CacheW.CErr.alreadyConnected, ⟨some 5⟩, 0, 0⟩ :=
  C8_connect_alreadyConnected ⟨some 5⟩ 5 rfl 3 true
    (fun _ => DBW.DialOutcome.ok 9) (fun _ => false) ⟨some 5⟩ 5 rfl
    (fun _ => CacheW.CacheDial.ok 9) (fun _ => false)

/-- C9: on a database wrapper with no live connection handle, Ping,
ExecContext, QueryContext, BeginTx and Close all return NotConnected
and perform no backend call; and after a successful Connect followed
by a successful Close the handle is nil again, so a second Close
returns NotConnected. -/
theorem C9_ops_notConnected (st : DBW.DBState) (hc : st.conn = none)
    (e1 e2 e3 e4 e5 : Option Nat) (h : Nat) :
    DBW.dbPing st e1 = (some DBW.DBErr.notConnected, 0) ∧
    DBW.dbExecContext st e2 = (some DBW.DBErr.notConnected, 0) ∧
    DBW.dbQueryContext st e3 = (some DBW.DBErr.notConnected, 0) ∧
    DBW.dbBeginTx st e4 = (some DBW.DBErr.notConnected, 0) ∧
    DBW.dbClose st e5 = (some DBW.DBErr.notConnected, st, 0) ∧
    (DBW.dbConnect ⟨none⟩ 0 true (fun _ => DBW.DialOutcome.ok h)
        (fun _ => false)).st = (⟨some h⟩ : DBW.DBState) ∧
    DBW.dbClose (⟨some h⟩ : DBW.DBState) none =
      (none, (⟨none⟩ : DBW.DBState), 1) ∧
    DBW.dbClose (⟨none⟩ : DBW.DBState) none =
      (some DBW.DBErr.notConnected, (⟨none⟩ : DBW.DBState), 0) := by
  refine ⟨?_, ?_, ?_, ?_, ?_, rfl, rfl, rfl⟩ <;>
    simp [DBW.dbPing, DBW.dbExecContext, DBW.dbQueryContext,
      DBW.dbBeginTx, DBW.dbClose, hc]

/-- Witness for C9 at a concrete input: the never-connected state and
handle 5. -/
theorem C9_ops_notConnected_witness :
    DBW.dbPing ⟨none⟩ (some 1) = (some DBW.DBErr.notConnected, 0) ∧
    DBW.dbExecContext ⟨none⟩ (some 1) = (some DBW.DBErr.notConnected, 0) ∧
    DBW.dbQueryContext ⟨none⟩ (some 1) = (some DBW.DBErr.notConnected, 0) ∧
    DBW.dbBeginTx ⟨none⟩ (some 1) = (some DBW.DBErr.notConnected, 0) ∧
    DBW.dbClose ⟨none⟩ (some 1) =
      (some DBW.DBErr.notConnected, (⟨none⟩ : DBW.DBState), 0) ∧
    (DBW.dbConnect ⟨none⟩ 0 true (fun _ => DBW.DialOutcome.ok 5)
        (fun _ => false)).st = (⟨some 5⟩ : DBW.DBState) ∧
    DBW.dbClose (⟨some 5⟩ : DBW.DBState) none =
      (none, (⟨none⟩ : DBW.DBState), 1) ∧
    DBW.dbClose (⟨none⟩ : DBW.DBState) none =
      (some DBW.DBErr.notConnected, (⟨none⟩ : DBW.DBState), 0) :=
  C9_ops_notConnected ⟨none⟩ rfl (some 1) (some 1) (some 1) (some 1)
    (some 1) 5

theorem dbConnectFrom_allFail_state (st : DBW.DBState)
    (outcomes : Nat → DBW.DialOutcome) (cancel : Nat → Bool) (m : Nat)
    (hfail : ∀ i, (outcomes i).fails = true) :
    ∀ r a, (DBW.dbConnectFrom st outcomes cancel m r a).2.1 = st := by
  intro r
  induction r with
  | zero =>
    intro a
    cases ho : outcomes a with
    | openFail c => simp [DBW.dbConnectFrom, DBW.dbConnectOnce, ho]
    | pingFail c => simp [DBW.dbConnectFrom, DBW.dbConnectOnce, ho]
    | ok hh =>
      have := hfail a
      rw [ho] at this
      exact absurd this (by simp [DBW.DialOutcome.fails])
  | succ r ih =>
    intro a
    cases ho : outcomes a with
    | openFail c =>
      cases hca : cancel a <;>
        simp [DBW.dbConnectFrom, DBW.dbConnectOnce, ho, hca, ih (a + 1)]
    | pingFail c =>
      cases hca : cancel a <;>
        simp [DBW.dbConnectFrom, DBW.dbConnectOnce, ho, hca, ih (a + 1)]
    | ok hh =>
      have := hfail a
      rw [ho] at this
      exact absurd this (by simp [DBW.DialOutcome.fails])

theorem cacheConnectFrom_allFail_state (st : CacheW.CacheState)
    (outcomes : Nat → CacheW.CacheDial) (cancel : Nat → Bool) (m : Nat)
    (hfail : ∀ i, (outcomes i).fails = true) :
    ∀ r a, (CacheW.cacheConnectFrom st outcomes cancel m r a).2.1 = st := by
  intro r
  induction r with
  | zero =>
    intro a
    cases ho : outcomes a with
    | pingFail c => simp [CacheW.cacheConnectFrom, CacheW.cacheConnectOnce, ho]
    | ok hh =>
      have := hfail a
      rw [ho] at this
      exact absurd this (by simp [CacheW.CacheDial.fails])
  | succ r ih =>
    intro a
    cases ho : outcomes a with
    | pingFail c =>
      cases hca : cancel a <;>
        simp [CacheW.cacheConnectFrom, CacheW.cacheConnectOnce, ho, hca,
          ih (a + 1)]
    | ok hh =>
      have := hfail a
      rw [ho] at this
      exact absurd this (by simp [CacheW.CacheDial.fails])

/-- C10: a dial-and-verify attempt that fails at the verification ping
returns the ping-failure error with the freshly opened client closed
again and the wrapper state unchanged (handle still nil), for the
database and the cache wrapper alike; and when every attempt fails,
the wrapper state after the whole Connect is unchanged, so the wrapper
remains Disconnected. -/
theorem C10_failed_connect_no_leak (st : DBW.DBState) (c : Nat)
    (hc : st.conn = none) (cst : CacheW.CacheState)
    (hcc : cst.client = none) (m : Int) (s : Bool)
    (outcomes : Nat → DBW.DialOutcome)
    (coutcomes : Nat → CacheW.CacheDial) (cancel : Nat → Bool)
    (hfail : ∀ i, (outcomes i).fails = true)
    (hcfail : ∀ i, (coutcomes i).fails = true) :
    DBW.dbConnectOnce st (DBW.DialOutcome.pingFail c) =
      ⟨some (DBW.DBErr.pingFailed c), st, true, true⟩ ∧
    CacheW.cacheConnectOnce cst (CacheW.CacheDial.pingFail c) =
      ⟨some (CacheW.CErr.pingFailed c), cst, true, true⟩ ∧
    (DBW.dbConnect st m s outcomes cancel).st = st ∧
    (CacheW.cacheConnect cst m s coutcomes cancel).st = cst := by
  refine ⟨rfl, rfl, ?_, ?_⟩
  · have hst := dbConnectFrom_allFail_state st outcomes cancel m.toNat hfail
    simp only [DBW.dbConnect, hc]
    by_cases hv : (decide (0 ≤ m) && s) = true
    · simp only [hv, if_true]
      cases hr : (DBW.dbConnectFrom st outcomes cancel m.toNat m.toNat 0).1 <;>
        simp [hr, hst m.toNat 0, ← hr]
    · simp only [Bool.not_eq_true] at hv
      simp [hv]
  · have hst := cacheConnectFrom_allFail_state cst coutcomes cancel m.toNat
      hcfail
    simp only [CacheW.cacheConnect, hcc]
    by_cases hv : (decide (0 ≤ m) && s) = true
    · simp only [hv, if_true]
      cases hr : (CacheW.cacheConnectFrom cst coutcomes cancel m.toNat
          m.toNat 0).1 <;>
        simp [hr, hst m.toNat 0, ← hr]
    · simp only [Bool.not_eq_true] at hv
      simp [hv]

/-- Witness for C10 at a concrete input: every attempt fails at the
ping with cause 3. -/
theorem C10_failed_connect_no_leak_witness :
    DBW.dbConnectOnce ⟨none⟩ (DBW.DialOutcome.pingFail 3) =
      ⟨some (DBW.DBErr.pingFailed 3), ⟨none⟩, true, true⟩ ∧
    CacheW.cacheConnectOnce ⟨none⟩ (CacheW.CacheDial.pingFail 3) =
      ⟨some (CacheW.CErr.pingFailed 3), ⟨none⟩, true, true⟩ ∧
    (DBW.dbConnect ⟨none⟩ 2 true (fun _ => DBW.DialOutcome.pingFail 3)
        (fun _ => false)).st = (⟨none⟩ : DBW.DBState) ∧
    (CacheW.cacheConnect ⟨none⟩ 2 true
        (fun _ => CacheW.CacheDial.pingFail 3)
        (fun _ => false)).st = (⟨none⟩ : CacheW.CacheState) :=
  C10_failed_connect_no_leak ⟨none⟩ 3 rfl ⟨none⟩ rfl 2 true
    (fun _ => DBW.DialOutcome.pingFail 3)
    (fun _ => CacheW.CacheDial.pingFail 3) (fun _ => false)
    (fun _ => rfl) (fun _ => rfl)
